import Mathlib

/-!
Verification development for the rare_event_mll repository.

The embedding covers:
* the shared early-stopping loop of the three trainers in
  `src/Models/torch/torch_classifier.py` (the single, multi and refined
  training loops contain the same counter logic, lines 129-138, 213-222
  and 286-295);
* the zero-initialization of the multi-task network second output head
  (lines 155-164), over a model of the `NeuralNet` module;
* the deep copy of the multi-task parameters into the refined model
  (lines 237-246), over a small heap model that makes aliasing explicit;
* the label selection of the training batches (lines 95-96 and 253-254);
* the return-value logic of `torch_classifier` (lines 317-339);
* the `_initialize` override of `MLPClassifierOverride` from
  `src/Models/sklearn/mlp_preset_weights.py` (lines 62-65);
* `plot_auc_ap` from `src/Results/base_plot_auc_ap.py`.

Validation scores (`roc_auc_score` values) and tensor entries are modelled
as rationals.
-/

/- ================= Early stopping (torch_classifier.py) ================= -/

/-- State of one trainer's early-stopping bookkeeping: the best validation
score seen so far (`best_single_val_loss` and friends, initialized to `0` in
the source, lines 78/149/232), the start-up counter and the patience
counter. -/
structure ESState where
  best : ℚ
  suCnt : ℕ
  patCnt : ℕ
deriving Repr, DecidableEq

/-- The initial early-stopping state of every trainer: best score `0`
(the source comments record `float("inf")` as the rejected alternative),
both counters `0` (lines 76-80, 147-151, 230-234). -/
def initES : ESState := ⟨0, 0, 0⟩

/-- One epoch's tail of a training loop (torch_classifier.py lines
129-138; the multi and refined loops repeat it verbatim at lines 213-222
and 286-295): the start-up counter is incremented, and once it has reached
`start_up` the epoch's validation score is compared with the best seen;
strict improvement resets the patience counter and updates the best,
otherwise the patience counter is incremented; the loop breaks when the
patience counter has reached `patience`.  Returns the new state and
whether the `break` fires. -/
def earlyStopEpoch (startUpCfg patienceCfg : ℕ) (score : ℚ) (s : ESState) :
    ESState × Bool :=
  let su := s.suCnt + 1
  if startUpCfg ≤ su then
    if s.best < score then
      (⟨score, su, 0⟩, decide (patienceCfg ≤ 0))
    else
      (⟨s.best, su, s.patCnt + 1⟩, decide (patienceCfg ≤ s.patCnt + 1))
  else
    (⟨s.best, su, s.patCnt⟩, false)

/-- The epoch loop (`for e in train_epochs`) as seen by the early-stopping
logic: it consumes the per-epoch validation scores in order and stops at the
first `break`.  Returns the number of completed epochs and whether the run
terminated early (via `break`) rather than by exhausting the epoch budget. -/
def trainLoop (startUpCfg patienceCfg : ℕ) :
    List ℚ → ESState → ℕ × Bool
  | [], _ => (0, false)
  | score :: rest, s =>
    let step := earlyStopEpoch startUpCfg patienceCfg score s
    if step.2 then (1, true)
    else
      let r := trainLoop startUpCfg patienceCfg rest step.1
      (r.1 + 1, r.2)

/-- A full training run from the initial state: number of completed epochs
and whether early stopping fired. -/
def completedEpochs (startUpCfg patienceCfg : ℕ) (scores : List ℚ) :
    ℕ × Bool :=
  trainLoop startUpCfg patienceCfg scores initES

/-- Invariant relating the patience counter to the epoch counter: a nonzero
patience count can only have been accumulated on epochs past the start-up
threshold. -/
def ESInv (su : ℕ) (s : ESState) : Prop :=
  s.patCnt ≠ 0 → su + s.patCnt ≤ s.suCnt + 1

/- ============ Batch label selection (torch_classifier.py) ============ -/

/-- NumPy fancy indexing `arr[batch]` on a label vector: the rows named by
the batch, in batch order.  Out-of-range indices default to `0`; the index
batches produced for a split stay in range. -/
def selectRows (arr : List ℚ) (batch : List ℕ) : List ℚ :=
  batch.map (fun i => arr.getD i 0)

/-- The sub-training split of a label vector produced by `train_test_split`
(torch_classifier.py lines 64-68): the external split selects (and
shuffles) a list `subIdx` of original row indices; the sub-training vector
holds those rows in that order. -/
def subSplit (arr : List ℚ) (subIdx : List ℕ) : List ℚ :=
  selectRows arr subIdx

/-- Targets of one batch of the single-task loop (line 96):
`e1_sub_train[batch]`, the sub-training labels at the batch indices. -/
def singleBatchTargets (e1_sub_train : List ℚ) (batch : List ℕ) : List ℚ :=
  selectRows e1_sub_train batch

/-- Targets of one batch of the refined loop (line 254): the source indexes
`e1_train[batch]`, the pre-split label vector, with indices that were
generated for the sub-training split (`create_batches` is called with
`num_samples=x_sub_train.shape[0]`, line 70). -/
def refinedBatchTargets (e1_train : List ℚ) (batch : List ℕ) : List ℚ :=
  selectRows e1_train batch

/- ============= Parameter deep copy (torch_classifier.py) ============= -/

/-- A heap of tensor cells: each address holds one parameter tensor
(abstracted to one rational), `next` is the allocation frontier.  Tensors
in the source are mutable, so aliasing questions are stated against this
heap. -/
structure Heap where
  mem : ℕ → ℚ
  next : ℕ

/-- In-place mutation of the tensor at address `a` (what a training step or
a caller-side assignment does to a parameter). -/
def writeHeap (h : Heap) (a : ℕ) (v : ℚ) : Heap :=
  ⟨fun x => if x = a then v else h.mem x, h.next⟩

/-- Allocation of a fresh tensor holding value `v`. -/
def allocCell (h : Heap) (v : ℚ) : Heap × ℕ :=
  (⟨fun x => if x = h.next then v else h.mem x, h.next + 1⟩, h.next)

/-- `copy.deepcopy(multi_params)` (torch_classifier.py line 242): every
tensor in the list is recursively copied into a fresh allocation holding
the same value; the result is the new heap and the fresh addresses. -/
def deepcopyParams : Heap → List ℕ → Heap × List ℕ
  | h, [] => (h, [])
  | h, a :: as =>
    let c := allocCell h (h.mem a)
    let r := deepcopyParams c.1 as
    (r.1, c.2 :: r.2)

/-- The collection loop of lines 238-241: out of the named parameters
(address paired with its `requires_grad` flag) keep the `param.data` of
those that require gradients. -/
def collectParams (named : List (ℕ × Bool)) : List ℕ :=
  (named.filter (fun p => p.2)).map (fun p => p.1)

/-- Concrete two-parameter heap used to instantiate the deep-copy theorem. -/
def heapW : Heap := ⟨fun a => (a : ℚ) + 5, 2⟩

/- ======== Multi-task network head initialization (lines 155-164) ======== -/

/-- A linear layer of the network: one weight row per output unit, one bias
entry per output unit. -/
structure Linear where
  weight : List (List ℚ)
  bias : List ℚ
deriving Repr, DecidableEq

/-- One linear layer as built by the network constructor, its entries drawn
from the default initializer `initW`/`initB` (a function of layer, row and
column, standing for the framework's random initialization). -/
def mkLinear (layer inDim outDim : ℕ) (initW : ℕ → ℕ → ℕ → ℚ)
    (initB : ℕ → ℕ → ℚ) : Linear :=
  ⟨(List.range outDim).map (fun r => (List.range inDim).map (initW layer r)),
   (List.range outDim).map (initB layer)⟩

/-- Modelled from the spec: the `NeuralNet` module
(`Models/torch/torch_base_nn.py`, imported at torch_classifier.py line 8,
is not among the repository files available here).  The spec describes it
as "a configurable multi-layer perceptron with a chosen activation and
optional preset initial weights"; for layer sizes `s₀..s_k` we model its
learnable layers as `k` linear maps.  Its `forward_pass` module sequence
interleaves each linear with an activation (ending in a sigmoid), so the
module at index `2*i` of `forward_pass` is linear `i`. -/
def mkNeuralNet (sizes : List ℕ) (initW : ℕ → ℕ → ℕ → ℚ)
    (initB : ℕ → ℕ → ℚ) : List Linear :=
  (List.range (sizes.length - 1)).map
    (fun layer =>
      mkLinear layer (sizes.getD layer 0) (sizes.getD (layer + 1) 0) initW initB)

/-- Tensor row assignment `weight.data[r] = row`: fails (torch shape
error) unless the row exists and the shapes agree. -/
def setRow (lin : Linear) (r : ℕ) (row : List ℚ) : Option Linear :=
  match lin.weight.get? r with
  | none => none
  | some old =>
    if old.length = row.length then some ⟨lin.weight.set r row, lin.bias⟩
    else none

/-- Tensor entry assignment `bias.data[r] = v`: fails (index error) unless
the entry exists. -/
def setBiasEntry (lin : Linear) (r : ℕ) (v : ℚ) : Option Linear :=
  if r < lin.bias.length then some ⟨lin.weight, lin.bias.set r v⟩ else none

/-- The zeroing of torch_classifier.py lines 160-164:
`multi_model.forward_pass[4].weight.data[1] = torch.zeros((multi_hidden_layers[-1],))`
and `multi_model.forward_pass[4].bias.data[1] = torch.zeros((1,))`.
Module index 4 of the interleaved `forward_pass` is linear index 2. -/
def zeroSecondHead (net : List Linear) (hiddenLast : ℕ) : Option (List Linear) :=
  match net.get? 2 with
  | none => none
  | some lin =>
    match setRow lin 1 (List.replicate hiddenLast 0) with
    | none => none
    | some lin1 =>
      match setBiasEntry lin1 1 0 with
      | none => none
      | some lin2 => some (net.set 2 lin2)

/-- Construction of the multi-task model (torch_classifier.py lines
156-164): a network with sizes `[input] + hidden_layers + [2]`, then the
zeroing of lines 160-164. -/
def buildMultiModel (inputDim : ℕ) (hidden : List ℕ)
    (initW : ℕ → ℕ → ℕ → ℚ) (initB : ℕ → ℕ → ℚ) : Option (List Linear) :=
  zeroSecondHead (mkNeuralNet ([inputDim] ++ hidden ++ [2]) initW initB)
    (hidden.getLastD 0)

/-- The output layer of the network: its last linear map. -/
def outputLinear (net : List Linear) : Linear := net.getLastD ⟨[], []⟩

/-- Weight row of output unit `r`. -/
def headWeight (net : List Linear) (r : ℕ) : List ℚ :=
  (outputLinear net).weight.getD r []

/-- Bias entry of output unit `r`. -/
def headBias (net : List Linear) (r : ℕ) : ℚ :=
  (outputLinear net).bias.getD r 0

/- ============ Return values of torch_classifier (lines 317-339) ============ -/

/-- Metrics a trained model can produce: its final validation AUC and
average precision (lines 140-143, 224-227) and its test-split AUC and
average precision (lines 324-330). -/
structure TrainedOutcome where
  validAuc : ℚ
  validAp : ℚ
  testAuc : ℚ
  testAp : ℚ
deriving Repr, DecidableEq

/-- The metric values the three training blocks would produce on the given
data; the metric computations themselves (`roc_auc_score`,
`average_precision_score`) are external. -/
structure TrainEnv where
  singleOutcome : TrainedOutcome
  multiOutcome : TrainedOutcome
  refinedOutcome : TrainedOutcome
deriving Repr, DecidableEq

/-- The possible return values of `torch_classifier`: the six-tuple of line
331, the four-tuple of line 333, or the validation record of lines
336-339. -/
inductive TCResult where
  | perf6 (sAuc mAuc rAuc sAp mAp rAp : ℚ)
  | perf4 (sAuc mAuc sAp mAp : ℚ)
  | validOnly (auc ap : ℚ)
deriving Repr, DecidableEq

/-- The configuration-dependent control flow of `torch_classifier`
(torch_classifier.py lines 84, 155, 237, 317-339): the single model exists
iff `single_config is not None` (line 84), the multi model iff
`multi_config is not None` (line 155); the refined block (line 237) reads
`multi_model` and so raises `NameError` when no multi model exists; the
`performance` branch (lines 317-333) evaluates `single_model` then
`multi_model` on the test split and returns six values with refinement,
four without; the `else` branch (lines 335-339) returns the validation
metrics of the single model if a single configuration was given, else of
the multi model.  A Python `NameError` is an `Except.error`. -/
def torch_classifier (singleCfg multiCfg performance runRefined : Bool)
    (env : TrainEnv) : Except String TCResult :=
  let singleModel : Option TrainedOutcome :=
    if singleCfg then some env.singleOutcome else none
  let multiModel : Option TrainedOutcome :=
    if multiCfg then some env.multiOutcome else none
  match (if runRefined then
           match multiModel with
           | some _ => Except.ok (some env.refinedOutcome)
           | none => Except.error "NameError: multi_model is not defined"
         else Except.ok none) with
  | Except.error e => Except.error e
  | Except.ok refinedModel =>
    if performance then
      match singleModel with
      | none => Except.error "NameError: single_model is not defined"
      | some s =>
        match multiModel with
        | none => Except.error "NameError: multi_model is not defined"
        | some m =>
          if runRefined then
            match refinedModel with
            | some r =>
              Except.ok (TCResult.perf6 s.testAuc m.testAuc r.testAuc
                s.testAp m.testAp r.testAp)
            | none => Except.error "NameError: refined_model is not defined"
          else Except.ok (TCResult.perf4 s.testAuc m.testAuc s.testAp m.testAp)
    else
      match singleModel with
      | some s => Except.ok (TCResult.validOnly s.validAuc s.validAp)
      | none =>
        match multiModel with
        | some m => Except.ok (TCResult.validOnly m.validAuc m.validAp)
        | none => Except.error "NameError: multi_valid_auc is not defined"

/-- Whether a call failed with an exception. -/
def isErr {α β : Type} : Except α β → Bool
  | Except.error _ => true
  | Except.ok _ => false

/-- Concrete metric environment used to instantiate theorems. -/
def envW : TrainEnv := ⟨⟨1, 2, 3, 4⟩, ⟨5, 6, 7, 8⟩, ⟨9, 10, 11, 12⟩⟩

/- ============== MLPClassifierOverride (mlp_preset_weights.py) ============== -/

/-- The weight state an `MLPClassifier` holds after its `_initialize`:
`coefs_` and `intercepts_`.  `None` (absent) is `Option.none`. -/
structure MLPWeights where
  coefs : Option (List (List (List ℚ)))
  intercepts : Option (List (List ℚ))
deriving Repr, DecidableEq

/-- The base class `MLPClassifier._initialize` (external sklearn): it sets
`coefs_` and `intercepts_` to the default random initializer's output,
passed in here as `defaultCoefs`/`defaultIntercepts`. -/
def baseInitWeights (defaultCoefs : List (List (List ℚ)))
    (defaultIntercepts : List (List ℚ)) : MLPWeights :=
  ⟨some defaultCoefs, some defaultIntercepts⟩

/-- `MLPClassifierOverride._initialize` (mlp_preset_weights.py lines
62-65): call the base class initializer, then unconditionally assign
`self.coefs_ = self.init_coefs_` and
`self.intercepts_ = self.init_intercepts_` (both default to `None` in
`__init__`, lines 31-32). -/
def overrideInitWeights (init_coefs : Option (List (List (List ℚ))))
    (init_intercepts : Option (List (List ℚ)))
    (defaultCoefs : List (List (List ℚ)))
    (defaultIntercepts : List (List ℚ)) : MLPWeights :=
  { baseInitWeights defaultCoefs defaultIntercepts with
    coefs := init_coefs, intercepts := init_intercepts }

/- ================== plot_auc_ap (base_plot_auc_ap.py) ================== -/

/-- Python `str.split(sep)` for a one-character separator, over the
character list of the string. -/
def splitOnChar (c : Char) : List Char → List (List Char)
  | [] => [[]]
  | x :: xs =>
    let r := splitOnChar c xs
    if x = c then [] :: r
    else (x :: r.headD []) :: r.tail

/-- The output path of `plot_auc_ap` (base_plot_auc_ap.py line 27):
`f-string of file_name.split(".")[0] followed by _boxplot.png`. -/
def plot_output_path (file_name : List Char) : List Char :=
  ((splitOnChar '.' file_name).headD []) ++ "_boxplot.png".toList

/-- Modelled from the spec: the basename of a path, the component after
the last `/`. -/
def basename (path : List Char) : List Char :=
  (splitOnChar '/' path).getLastD path

/-- Modelled from the spec: stripping the extension of a file name,
everything before its last `.` (the name itself when it has none). -/
def dropExtension (s : List Char) : List Char :=
  if s.contains '.' then ((s.reverse.dropWhile (fun c => c ≠ '.')).drop 1).reverse
  else s

/-- Modelled from the spec: the output path the spec describes, the
basename stripped of its extension with `_boxplot.png` appended. -/
def spec_output_path (file_name : List Char) : List Char :=
  dropExtension (basename file_name) ++ "_boxplot.png".toList

/-- `plot_auc_ap` (base_plot_auc_ap.py lines 5-27) up to its effects: read
the results table (external `pd.read_csv`, abstracted as `read_csv`), loop
`for k, v in calc_vars.items()` assigning derived columns (external
`results.eval`, abstracted as `eval_assign`) — on `calc_vars=None` this
loop raises `AttributeError` since `None` has no `.items()` — then reshape
and render (external `drop`/`melt`/`catplot`, abstracted as `reshape`),
and save the figure to the derived path, which is returned. -/
def plot_auc_ap {DF : Type} (read_csv : List Char → DF)
    (eval_assign : DF → String → String → DF)
    (reshape : DF → List (String × String) → DF)
    (file_name : List Char) (vars : List (String × String))
    (calc_vars : Option (List (String × String))) :
    Except String (List Char) :=
  let results := read_csv file_name
  match calc_vars with
  | none => Except.error "AttributeError: NoneType object has no attribute items"
  | some cv =>
    let results := cv.foldl (fun df kv => eval_assign df kv.1 kv.2) results
    let _ := reshape results vars
    Except.ok (plot_output_path file_name)

/- ======================== Supporting lemmas ======================== -/

/-- Each epoch advances the start-up counter by exactly one. -/
theorem earlyStopEpoch_suCnt (su pat : ℕ) (score : ℚ) (s : ESState) :
    (earlyStopEpoch su pat score s).1.suCnt = s.suCnt + 1 := by
  unfold earlyStopEpoch
  by_cases h1 : su ≤ s.suCnt + 1 <;> by_cases h2 : s.best < score <;>
    simp [h1, h2]

/-- Each epoch grows the patience counter by at most one. -/
theorem earlyStopEpoch_patCnt_le (su pat : ℕ) (score : ℚ) (s : ESState) :
    (earlyStopEpoch su pat score s).1.patCnt ≤ s.patCnt + 1 := by
  unfold earlyStopEpoch
  by_cases h1 : su ≤ s.suCnt + 1 <;> by_cases h2 : s.best < score <;>
    simp [h1, h2]

/-- One epoch preserves `ESInv`. -/
theorem earlyStopEpoch_inv (su pat : ℕ) (score : ℚ) (s : ESState)
    (h : ESInv su s) : ESInv su (earlyStopEpoch su pat score s).1 := by
  unfold earlyStopEpoch ESInv at *
  by_cases h1 : su ≤ s.suCnt + 1 <;> by_cases h2 : s.best < score <;>
    by_cases hp : s.patCnt = 0 <;> simp [h1, h2, hp] at * <;> omega

/-- When the `break` fires, the patience threshold was reached on an epoch
past the start-up threshold. -/
theorem earlyStopEpoch_break_le (su pat : ℕ) (score : ℚ) (s : ESState)
    (h : (earlyStopEpoch su pat score s).2 = true) :
    pat ≤ (earlyStopEpoch su pat score s).1.patCnt ∧ su ≤ s.suCnt + 1 := by
  unfold earlyStopEpoch at *
  by_cases h1 : su ≤ s.suCnt + 1 <;> by_cases h2 : s.best < score <;>
    simp [h1, h2] at * <;> omega

/-- If the loop breaks after `n` further epochs, at least `pat - patCnt`
of them incremented the patience counter. -/
theorem trainLoop_break_patCnt (su pat : ℕ) :
    ∀ (scores : List ℚ) (s : ESState) (n : ℕ),
      trainLoop su pat scores s = (n, true) → pat ≤ s.patCnt + n := by
  intro scores
  induction scores with
  | nil => intro s n h; simp [trainLoop] at h
  | cons score rest ih =>
    intro s n h
    simp only [trainLoop] at h
    by_cases hb : (earlyStopEpoch su pat score s).2 = true
    · simp [hb] at h
      have h1 := (earlyStopEpoch_break_le su pat score s hb).1
      have h2 := earlyStopEpoch_patCnt_le su pat score s
      omega
    · simp [hb] at h
      obtain ⟨h3, h5⟩ := h
      have h4 := ih (earlyStopEpoch su pat score s).1
          (trainLoop su pat rest (earlyStopEpoch su pat score s).1).1
          (by rw [← h5])
      have h2 := earlyStopEpoch_patCnt_le su pat score s
      omega

/-- If the loop breaks after `n` further epochs from a state satisfying
`ESInv`, the total number of epochs reaches the start-up threshold plus
the outstanding patience. -/
theorem trainLoop_break_suCnt (su pat : ℕ) :
    ∀ (scores : List ℚ) (s : ESState) (n : ℕ),
      ESInv su s → trainLoop su pat scores s = (n, true) →
      su + pat ≤ s.suCnt + n + 1 := by
  intro scores
  induction scores with
  | nil => intro s n _ h; simp [trainLoop] at h
  | cons score rest ih =>
    intro s n hinv h
    simp only [trainLoop] at h
    by_cases hb : (earlyStopEpoch su pat score s).2 = true
    · simp [hb] at h
      obtain ⟨h1, h2⟩ := earlyStopEpoch_break_le su pat score s hb
      have h3 := earlyStopEpoch_patCnt_le su pat score s
      unfold ESInv at hinv
      by_cases hp : s.patCnt = 0
      · omega
      · have := hinv hp; omega
    · simp [hb] at h
      obtain ⟨h3, h5⟩ := h
      have h4 := ih (earlyStopEpoch su pat score s).1
          (trainLoop su pat rest (earlyStopEpoch su pat score s).1).1
          (earlyStopEpoch_inv su pat score s hinv) (by rw [← h5])
      have h6 := earlyStopEpoch_suCnt su pat score s
      omega

/-- The deep copy allocates one fresh cell per parameter. -/
theorem deepcopyParams_next (h : Heap) (as : List ℕ) :
    (deepcopyParams h as).1.next = h.next + as.length := by
  induction as generalizing h with
  | nil => simp [deepcopyParams]
  | cons a as ih =>
    simp only [deepcopyParams, allocCell]
    rw [ih]
    simp
    omega

/-- The deep copy leaves every previously allocated cell unchanged. -/
theorem deepcopyParams_preserves (h : Heap) (as : List ℕ) :
    ∀ a < h.next, (deepcopyParams h as).1.mem a = h.mem a := by
  induction as generalizing h with
  | nil => intro a _; simp [deepcopyParams]
  | cons b as ih =>
    intro a ha
    simp only [deepcopyParams]
    have h2 := ih (allocCell h (h.mem b)).1 a (by simp [allocCell]; omega)
    rw [h2]
    simp [allocCell]
    omega

/-- The copied addresses are fresh: at or past the old allocation
frontier. -/
theorem deepcopyParams_fresh (h : Heap) (as : List ℕ) :
    ∀ c ∈ (deepcopyParams h as).2, h.next ≤ c ∧ c < h.next + as.length := by
  induction as generalizing h with
  | nil => intro c hc; simp [deepcopyParams] at hc
  | cons b as ih =>
    intro c hc
    simp only [deepcopyParams, List.mem_cons] at hc
    rcases hc with rfl | hc
    · simp only [allocCell, List.length_cons]
      omega
    · have := ih (allocCell h (h.mem b)).1 c hc
      simp only [allocCell, List.length_cons] at this ⊢
      omega

/-- The copied cells hold the same values as the originals. -/
theorem deepcopyParams_values (h : Heap) (as : List ℕ)
    (hwf : ∀ a ∈ as, a < h.next) :
    ((deepcopyParams h as).2).map (deepcopyParams h as).1.mem =
      as.map h.mem := by
  induction as generalizing h with
  | nil => simp [deepcopyParams]
  | cons b as ih =>
    simp only [deepcopyParams, List.map_cons, List.cons.injEq]
    constructor
    · rw [deepcopyParams_preserves (allocCell h (h.mem b)).1 as (allocCell h (h.mem b)).2
        (by simp [allocCell])]
      simp [allocCell]
    · rw [ih (allocCell h (h.mem b)).1 ?_]
      · apply List.map_congr_left
        intro a ha
        have := hwf a (List.mem_cons_of_mem b ha)
        simp only [allocCell]
        rw [if_neg (by omega)]
      · intro a ha
        have := hwf a (List.mem_cons_of_mem b ha)
        simp [allocCell]
        omega

/-- The first piece of Python split: everything before the first
separator. -/
theorem splitOnChar_head (c : Char) (s : List Char) :
    (splitOnChar c s).headD [] = s.takeWhile (fun x => x ≠ c) := by
  induction s with
  | nil => rfl
  | cons x xs ih =>
    simp only [splitOnChar]
    by_cases hx : x = c
    · simp [hx, List.takeWhile_cons]
    · simpa [hx, List.takeWhile_cons] using ih

/- ========================= Claim theorems ========================= -/

/-- C1: the claim states that the target labels the refined trainer passes
to the binary cross-entropy loss are the primary labels of the same rows
whose features form the batch, i.e. batch indices select features and
labels from the same row-aligned sub-training split.  The code violates
this: line 254 indexes `e1_train` (the pre-split labels) with indices
generated for the sub-training split.  Concretely, with pre-split labels
`[0, 1, 0, 1]` and a sub-training split keeping (shuffled) original rows
`[1, 2, 3]`, the batch `[0]` receives label `0` from the code while the
label row-aligned to its feature row (sub-training row 0, original row 1)
is `1` — as the single-task loop (line 96) would select. -/
theorem C1_refined_batch_labels_misaligned :
    refinedBatchTargets [0, 1, 0, 1] [0] = [0] ∧
    singleBatchTargets (subSplit [0, 1, 0, 1] [1, 2, 3]) [0] = [1] ∧
    refinedBatchTargets [0, 1, 0, 1] [0] ≠
      singleBatchTargets (subSplit [0, 1, 0, 1] [1, 2, 3]) [0] := by
  decide

/-- C2: when refinement is requested, the refined model's initial
parameters are a deep copy of the multi-task model's parameters at the
point of transfer: the copied cells hold the same values, and after the
copy, mutating any refined-model parameter leaves every multi-task
parameter unchanged and vice versa (no shared mutable ownership). -/
theorem C2_refined_params_deep_copied (h : Heap) (named : List (ℕ × Bool))
    (hwf : ∀ a ∈ collectParams named, a < h.next) :
    ((deepcopyParams h (collectParams named)).2).map
        (deepcopyParams h (collectParams named)).1.mem =
      (collectParams named).map h.mem ∧
    (∀ c ∈ (deepcopyParams h (collectParams named)).2, ∀ v : ℚ,
      ∀ a ∈ collectParams named,
        (writeHeap (deepcopyParams h (collectParams named)).1 c v).mem a =
          (deepcopyParams h (collectParams named)).1.mem a) ∧
    (∀ a ∈ collectParams named, ∀ v : ℚ,
      ∀ c ∈ (deepcopyParams h (collectParams named)).2,
        (writeHeap (deepcopyParams h (collectParams named)).1 a v).mem c =
          (deepcopyParams h (collectParams named)).1.mem c) := by
  refine ⟨deepcopyParams_values h _ hwf, ?_, ?_⟩
  · intro c hc v a ha
    have h1 := deepcopyParams_fresh h (collectParams named) c hc
    have h2 := hwf a ha
    simp only [writeHeap]
    rw [if_neg (by omega)]
  · intro a ha v c hc
    have h1 := deepcopyParams_fresh h (collectParams named) c hc
    have h2 := hwf a ha
    simp only [writeHeap]
    rw [if_neg (by omega)]

/-- C2 witness: the deep-copy theorem instantiated on the concrete
two-parameter heap `heapW`, one parameter requiring gradients. -/
theorem C2_refined_params_deep_copied_witness :
    (∀ a ∈ collectParams [(0, true), (1, false)], a < heapW.next) ∧
    (((deepcopyParams heapW (collectParams [(0, true), (1, false)])).2).map
        (deepcopyParams heapW (collectParams [(0, true), (1, false)])).1.mem =
      (collectParams [(0, true), (1, false)]).map heapW.mem ∧
    (∀ c ∈ (deepcopyParams heapW (collectParams [(0, true), (1, false)])).2,
      ∀ v : ℚ, ∀ a ∈ collectParams [(0, true), (1, false)],
        (writeHeap (deepcopyParams heapW
            (collectParams [(0, true), (1, false)])).1 c v).mem a =
          (deepcopyParams heapW (collectParams [(0, true), (1, false)])).1.mem a) ∧
    (∀ a ∈ collectParams [(0, true), (1, false)], ∀ v : ℚ,
      ∀ c ∈ (deepcopyParams heapW (collectParams [(0, true), (1, false)])).2,
        (writeHeap (deepcopyParams heapW
            (collectParams [(0, true), (1, false)])).1 a v).mem c =
          (deepcopyParams heapW (collectParams [(0, true), (1, false)])).1.mem c)) :=
  ⟨by decide, C2_refined_params_deep_copied heapW [(0, true), (1, false)] (by decide)⟩

/-- C3 counterexample: the claim quantifies over every multi-task
configuration, but the zeroing targets the hard-coded module index 4 of
`forward_pass`, which is the output layer only when there are exactly two
hidden layers.  With three hidden layers `[2, 2, 2]` (input width 2) and a
default initializer putting `1` everywhere, the assignment lands on a
hidden layer and succeeds shape-wise, and the second output unit keeps its
default nonzero weights `[1, 1]` instead of zeros. -/
theorem C3_second_head_zero_cex :
    (buildMultiModel 2 [2, 2, 2] (fun _ _ _ => 1) (fun _ _ => 1)).map
        (fun net => headWeight net 1) = some [1, 1] ∧
    some [1, 1] ≠ some (List.replicate 2 (0 : ℚ)) := by
  decide

/-- C3 (amended): for every multi-task configuration with exactly two
hidden layers — the shape the hard-coded `forward_pass[4]` addresses —
immediately after construction and before any training step, the second
output unit's weight row is all zeros and its bias is zero, while the
first output unit keeps the default initializer's weights and bias. -/
theorem C3_second_head_zero_two_hidden (n h1 h2 : ℕ)
    (initW : ℕ → ℕ → ℕ → ℚ) (initB : ℕ → ℕ → ℚ) :
    (buildMultiModel n [h1, h2] initW initB).map (fun net => headWeight net 1) =
      some (List.replicate h2 0) ∧
    (buildMultiModel n [h1, h2] initW initB).map (fun net => headBias net 1) =
      some 0 ∧
    (buildMultiModel n [h1, h2] initW initB).map (fun net => headWeight net 0) =
      some ((List.range h2).map (initW 2 0)) ∧
    (buildMultiModel n [h1, h2] initW initB).map (fun net => headBias net 0) =
      some (initB 2 0) := by
  have hr3 : List.range 3 = [0, 1, 2] := rfl
  have hr2 : List.range 2 = [0, 1] := rfl
  simp [buildMultiModel, mkNeuralNet, mkLinear, zeroSecondHead, setRow,
    setBiasEntry, outputLinear, headWeight, headBias, hr3, hr2]

/-- C4 counterexample: the claim says early stopping never fires before
`start_up + patience` epochs have completed.  With `start_up = 1`,
`patience = 1` and every validation score `0` (an attainable AUC), the
first epoch is already past the start-up threshold — the counter is
incremented before the comparison — the score does not strictly exceed the
initial best `0`, the patience counter reaches 1, and the loop breaks
after a single completed epoch, fewer than `start_up + patience = 2`. -/
theorem C4_early_stop_bound_cex :
    (completedEpochs 1 1 [0, 0, 0]).2 = true ∧
    (completedEpochs 1 1 [0, 0, 0]).1 < 1 + 1 := by
  decide

/-- C4 (amended): for every configuration with `patience ≥ 1` and any
per-epoch score sequence, when early stopping terminates the run the
number of completed epochs is at least `max start_up 1 + patience - 1`
(one less than the claimed `start_up + patience` whenever
`start_up ≥ 1`, because the epoch that reaches the start-up threshold is
already eligible to increment the patience counter).  The bound applies
to all three trainers, whose loops share this logic verbatim. -/
theorem C4_early_stop_lower_bound (su pat : ℕ) (scores : List ℚ)
    (hpat : 1 ≤ pat)
    (hstop : (completedEpochs su pat scores).2 = true) :
    max su 1 + pat - 1 ≤ (completedEpochs su pat scores).1 := by
  have heq : trainLoop su pat scores initES =
      ((completedEpochs su pat scores).1, true) := by
    rw [← hstop]; rfl
  have h1 := trainLoop_break_patCnt su pat scores initES _ heq
  have h2 := trainLoop_break_suCnt su pat scores initES _
      (by intro hc; simp [initES] at hc) heq
  simp [initES] at h1 h2
  omega

/-- C4 witness: the lower bound instantiated at `start_up = 1`,
`patience = 1` and the all-zero score sequence, where the run stops early
after exactly one epoch. -/
theorem C4_early_stop_lower_bound_witness :
    1 ≤ 1 ∧ (completedEpochs 1 1 [0, 0, 0]).2 = true ∧
    max 1 1 + 1 - 1 ≤ (completedEpochs 1 1 [0, 0, 0]).1 :=
  ⟨by decide, by decide,
    C4_early_stop_lower_bound 1 1 [0, 0, 0] (by decide) (by decide)⟩

/-- C5 counterexample: the claim says a validation score of exactly 0 in
the first post-start-up epoch never counts as a regression, i.e. never
increments the patience counter.  Running one epoch with score 0 from the
initial state (`start_up = 1`, so the epoch is past the start-up
threshold) increments the patience counter from 0 to 1, because the
improvement test `score > best` is strict and the best is initialized to
`0`, not negative infinity. -/
theorem C5_zero_score_cex :
    (earlyStopEpoch 1 5 0 initES).1.patCnt = initES.patCnt + 1 ∧
    initES.patCnt = 0 := by
  decide

/-- C5 (amended): because the best-seen score starts at `0` and
improvement requires strictly exceeding it, a validation score of exactly
`0` on any epoch past the start-up threshold in a state still holding the
initial best `0` always counts as a regression: it increments the patience
counter.  (Had the best been initialized to negative infinity, the first
such score would have counted as an improvement and reset the counter.) -/
theorem C5_zero_score_increments_patience (su pat : ℕ) (s : ESState)
    (hbest : s.best = 0) (hsu : su ≤ s.suCnt + 1) :
    (earlyStopEpoch su pat 0 s).1.patCnt = s.patCnt + 1 := by
  unfold earlyStopEpoch
  simp [hsu, hbest]

/-- C5 witness: the amended statement instantiated at the initial state
with `start_up = 1` and `patience = 5`. -/
theorem C5_zero_score_witness :
    initES.best = 0 ∧ 1 ≤ initES.suCnt + 1 ∧
    (earlyStopEpoch 1 5 0 initES).1.patCnt = initES.patCnt + 1 :=
  ⟨rfl, by decide, C5_zero_score_increments_patience 1 5 initES rfl (by decide)⟩

/-- C6: with both configurations supplied, requesting test-set performance
returns six values (single, multi, refined test AUC, then single, multi,
refined test AP) when refinement was requested, otherwise four (single,
multi AUC then single, multi AP); without the performance request the call
returns a record holding only the validation AUC and AP of the single-task
model when a single configuration was given, else of the multi-task
model.  All reachable flag combinations are enumerated. -/
theorem C6_return_shape (env : TrainEnv) :
    torch_classifier true true true true env =
      Except.ok (TCResult.perf6 env.singleOutcome.testAuc
        env.multiOutcome.testAuc env.refinedOutcome.testAuc
        env.singleOutcome.testAp env.multiOutcome.testAp
        env.refinedOutcome.testAp) ∧
    torch_classifier true true true false env =
      Except.ok (TCResult.perf4 env.singleOutcome.testAuc
        env.multiOutcome.testAuc env.singleOutcome.testAp
        env.multiOutcome.testAp) ∧
    torch_classifier true true false false env =
      Except.ok (TCResult.validOnly env.singleOutcome.validAuc
        env.singleOutcome.validAp) ∧
    torch_classifier true true false true env =
      Except.ok (TCResult.validOnly env.singleOutcome.validAuc
        env.singleOutcome.validAp) ∧
    torch_classifier true false false false env =
      Except.ok (TCResult.validOnly env.singleOutcome.validAuc
        env.singleOutcome.validAp) ∧
    torch_classifier false true false false env =
      Except.ok (TCResult.validOnly env.multiOutcome.validAuc
        env.multiOutcome.validAp) ∧
    torch_classifier false true false true env =
      Except.ok (TCResult.validOnly env.multiOutcome.validAuc
        env.multiOutcome.validAp) :=
  ⟨rfl, rfl, rfl, rfl, rfl, rfl, rfl⟩

/-- C7 counterexample: the claim says that when no initial matrices are
supplied, training behaves exactly as the base class does.  It does not:
the override assigns `self.init_coefs_` and `self.init_intercepts_`
unconditionally after calling the base initializer, so with both `None`
the weights end up `None` instead of the base class default
initialization. -/
theorem C7_none_not_default_cex :
    overrideInitWeights none none [[[1]]] [[1]] ≠ baseInitWeights [[[1]]] [[1]] := by
  decide

/-- C7 (amended): when initial coefficient and intercept matrices are
supplied they replace the default initializer's output; when they are not
supplied, the override sets `coefs_` and `intercepts_` to `None`,
diverging from the base class behavior (which keeps the default random
initialization) — the rest of training is untouched by the subclass. -/
theorem C7_preset_weights_replace_init (c : List (List (List ℚ)))
    (i : List (List ℚ)) (dC : List (List (List ℚ))) (dI : List (List ℚ)) :
    overrideInitWeights (some c) (some i) dC dI = ⟨some c, some i⟩ ∧
    (overrideInitWeights none none dC dI).coefs = none ∧
    (overrideInitWeights none none dC dI).intercepts = none ∧
    overrideInitWeights none none dC dI ≠ baseInitWeights dC dI := by
  refine ⟨rfl, rfl, rfl, ?_⟩
  intro h
  have := congrArg MLPWeights.coefs h
  simp [overrideInitWeights, baseInitWeights] at this

/-- C8 counterexample: the claim derives the output path by stripping the
extension from the basename and appending `_boxplot.png`.  On the input
`run.v2.csv` that recipe yields `run.v2_boxplot.png`, but the code takes
`file_name.split(".")[0]`, everything before the FIRST dot, and writes
`run_boxplot.png`. -/
theorem C8_output_path_cex :
    plot_output_path "run.v2.csv".toList = "run_boxplot.png".toList ∧
    spec_output_path "run.v2.csv".toList = "run.v2_boxplot.png".toList ∧
    plot_output_path "run.v2.csv".toList ≠ spec_output_path "run.v2.csv".toList := by
  decide

/-- C8 (amended): for every input path, the rendered image is written to
the prefix of the full input path before its first `.` (directory
components included, empty when the path starts with a dot) with
`_boxplot.png` appended; this equals the basename-minus-extension recipe
only for paths with no directory separators and at most one dot. -/
theorem C8_output_path_first_dot (file_name : List Char) :
    plot_output_path file_name =
      file_name.takeWhile (fun x => x ≠ '.') ++ "_boxplot.png".toList := by
  unfold plot_output_path
  rw [splitOnChar_head]

/-- C9: for every input and variable specification, calling `plot_auc_ap`
without a `calc_vars` dictionary (its declared default, `None`) raises an
`AttributeError` before any plot is produced, because the derived-column
loop iterates `calc_vars.items()` unconditionally; passing an empty
dictionary instead reaches the plotting and the derived output path. -/
theorem C9_calc_vars_none_raises {DF : Type} (read_csv : List Char → DF)
    (eval_assign : DF → String → String → DF)
    (reshape : DF → List (String × String) → DF)
    (file_name : List Char) (vars : List (String × String)) :
    plot_auc_ap read_csv eval_assign reshape file_name vars none =
      Except.error "AttributeError: NoneType object has no attribute items" ∧
    plot_auc_ap read_csv eval_assign reshape file_name vars (some []) =
      Except.ok (plot_output_path file_name) :=
  ⟨rfl, rfl⟩

/-- C10: requesting test-set performance is only well-defined when both a
single-task and a multi-task configuration were supplied: with performance
requested and either configuration absent, the evaluation branch (or, with
refinement, the refined block before it) references a model that was never
constructed, and the call fails with a `NameError` instead of returning
metrics. -/
theorem C10_performance_needs_both_configs (env : TrainEnv)
    (sc mc rr : Bool) (h : sc = false ∨ mc = false) :
    isErr (torch_classifier sc mc true rr env) = true := by
  cases sc <;> cases mc <;> cases rr <;>
    simp_all [torch_classifier, isErr]

/-- C10 witness: performance requested with no single-task configuration
(multi present, no refinement) fails. -/
theorem C10_performance_needs_both_configs_witness :
    ((false : Bool) = false ∨ (true : Bool) = false) ∧
    isErr (torch_classifier false true true false envW) = true :=
  ⟨Or.inl rfl, C10_performance_needs_both_configs envW false true false (Or.inl rfl)⟩
